import Mathlib

/-!
Verification of the Marlin yield-splitting protocol contracts.

Each contract under `smart_contracts/` is shallowly embedded: the AVM's
unsigned 64-bit arithmetic is modelled on `Nat`.  Every place where the AVM
would abort (failed `assert`, subtraction underflow, division by zero) is
modelled as an explicit failure (`none` / `.error`), so a call that returns
`some`/`.ok` in the model corresponds exactly to an AVM execution that
commits.  (AVM multiplication overflow also aborts; the model's success set
is therefore a superset of the chain's, which is sound for properties
quantified over successful executions.)
-/

namespace Marlin

/-- Pointwise update of an address-indexed map (`LocalState` assignment). -/
def upd (m : Nat → Nat) (k v : Nat) : Nat → Nat := fun i => if i = k then v else m i

theorem upd_same (m : Nat → Nat) (k v : Nat) : upd m k v k = v := by simp [upd]

theorem upd_other (m : Nat → Nat) (k v i : Nat) (h : i ≠ k) : upd m k v i = m i := by
  simp [upd, h]

/-! ## Simple AMM (`simple_amm/contract.py`)

Global state of `SimpleAMM`; the `admin` byte field is irrelevant to the
claims and omitted (no embedded operation reads it). -/

structure AMMState where
  reserve_a : Nat
  reserve_b : Nat
  fee_rate : Nat
  is_paused : Nat
  total_liquidity : Nat
  liquidity_balance : Nat → Nat
  token_a_deposited : Nat → Nat
  token_b_deposited : Nat → Nat

/-- `self.fee_denominator = UInt64(1000)` -/
def fee_denominator : Nat := 1000

/-- `_get_amount_out` (contract.py:264-283).  Fails when an assert fails. -/
def get_amount_out (fee amount_in reserve_in reserve_out : Nat) : Option Nat :=
  if amount_in = 0 then none
  else if reserve_in = 0 ∨ reserve_out = 0 then none
  else
    let amount_in_with_fee := amount_in * (fee_denominator - fee)
    let numerator := amount_in_with_fee * reserve_out
    let denominator := reserve_in * fee_denominator + amount_in_with_fee
    some (numerator / denominator)

/-- The `while y < z and counter < 10` loop of `_sqrt`, fuelled by the
remaining iteration budget. -/
def sqrt_loop (x : Nat) : Nat → Nat → Nat → Nat
  | 0, z, _ => z
  | fuel + 1, z, y => if y < z then sqrt_loop x fuel y ((x / y + y) / 2) else z

/-- `_sqrt` (contract.py:285-302): bounded Newton iteration. -/
def amm_sqrt (x : Nat) : Nat :=
  if x = 0 then 0 else sqrt_loop x 10 x ((x + 1) / 2)

/-- `swap_a_for_b` (contract.py:121-142). -/
def swap_a_for_b (amount_in : Nat) (s : AMMState) : Option AMMState :=
  if s.is_paused ≠ 0 then none
  else if amount_in = 0 then none
  else if s.reserve_a = 0 ∨ s.reserve_b = 0 then none
  else
    (get_amount_out s.fee_rate amount_in s.reserve_a s.reserve_b).bind
      (fun amount_out =>
        if amount_out = 0 then none
        else if s.reserve_b < amount_out then none
        else some { s with
          reserve_a := s.reserve_a + amount_in
          reserve_b := s.reserve_b - amount_out })

/-- `swap_b_for_a` (contract.py:144-165). -/
def swap_b_for_a (amount_in : Nat) (s : AMMState) : Option AMMState :=
  if s.is_paused ≠ 0 then none
  else if amount_in = 0 then none
  else if s.reserve_a = 0 ∨ s.reserve_b = 0 then none
  else
    (get_amount_out s.fee_rate amount_in s.reserve_b s.reserve_a).bind
      (fun amount_out =>
        if amount_out = 0 then none
        else if s.reserve_a < amount_out then none
        else some { s with
          reserve_b := s.reserve_b + amount_in
          reserve_a := s.reserve_a - amount_out })

/-- `add_liquidity` (contract.py:66-119).  Returns the new state together
with the number of liquidity tokens minted by this call.  In the
subsequent-deposit branch the source divides by both reserves
(`required_b`, `required_a`), so a zero reserve there is an AVM
division-by-zero abort. -/
def add_liquidity (sender amount_a amount_b : Nat) (s : AMMState) :
    Option (AMMState × Nat) :=
  if s.is_paused ≠ 0 then none
  else if amount_a = 0 ∨ amount_b = 0 then none
  else if s.reserve_a = 0 ∧ s.reserve_b = 0 then
    let liquidity_tokens := amm_sqrt (amount_a * amount_b)
    some ({ s with
      reserve_a := amount_a
      reserve_b := amount_b
      liquidity_balance := upd s.liquidity_balance sender liquidity_tokens
      total_liquidity := liquidity_tokens
      token_a_deposited := upd s.token_a_deposited sender
        (s.token_a_deposited sender + amount_a)
      token_b_deposited := upd s.token_b_deposited sender
        (s.token_b_deposited sender + amount_b) }, liquidity_tokens)
  else if s.reserve_a = 0 ∨ s.reserve_b = 0 then none
  else if amount_a * s.reserve_b / s.reserve_a ≤ amount_b then
      let required_b := amount_a * s.reserve_b / s.reserve_a
      let liquidity_tokens := amount_a * s.total_liquidity / s.reserve_a
      some ({ s with
        reserve_a := s.reserve_a + amount_a
        reserve_b := s.reserve_b + required_b
        liquidity_balance := upd s.liquidity_balance sender
          (s.liquidity_balance sender + liquidity_tokens)
        total_liquidity := s.total_liquidity + liquidity_tokens
        token_a_deposited := upd s.token_a_deposited sender
          (s.token_a_deposited sender + amount_a)
        token_b_deposited := upd s.token_b_deposited sender
          (s.token_b_deposited sender + amount_b) }, liquidity_tokens)
  else
      let required_a := amount_b * s.reserve_a / s.reserve_b
      let liquidity_tokens := amount_b * s.total_liquidity / s.reserve_b
      some ({ s with
        reserve_a := s.reserve_a + required_a
        reserve_b := s.reserve_b + amount_b
        liquidity_balance := upd s.liquidity_balance sender
          (s.liquidity_balance sender + liquidity_tokens)
        total_liquidity := s.total_liquidity + liquidity_tokens
        token_a_deposited := upd s.token_a_deposited sender
          (s.token_a_deposited sender + amount_a)
        token_b_deposited := upd s.token_b_deposited sender
          (s.token_b_deposited sender + amount_b) }, liquidity_tokens)

/-- `remove_liquidity` (contract.py:201-232).  Returns the new state and
the pair `(amount_a, amount_b)` paid out.  Zero `total_liquidity` is an
AVM division-by-zero abort; a reserve or total-liquidity decrement below
zero is an AVM underflow abort. -/
def remove_liquidity (sender liquidity_amount : Nat) (s : AMMState) :
    Option (AMMState × Nat × Nat) :=
  if s.is_paused ≠ 0 then none
  else if liquidity_amount = 0 then none
  else if s.liquidity_balance sender < liquidity_amount then none
  else if s.total_liquidity = 0 then none
  else if s.reserve_a < liquidity_amount * s.reserve_a / s.total_liquidity ∨
      s.reserve_b < liquidity_amount * s.reserve_b / s.total_liquidity ∨
      s.total_liquidity < liquidity_amount then none
  else
      let amount_a := liquidity_amount * s.reserve_a / s.total_liquidity
      let amount_b := liquidity_amount * s.reserve_b / s.total_liquidity
      let s1 : AMMState := { s with
        reserve_a := s.reserve_a - amount_a
        reserve_b := s.reserve_b - amount_b
        liquidity_balance := upd s.liquidity_balance sender
          (s.liquidity_balance sender - liquidity_amount)
        total_liquidity := s.total_liquidity - liquidity_amount }
      let s2 : AMMState :=
        if amount_a ≤ s1.token_a_deposited sender then
          { s1 with
            token_a_deposited := upd s1.token_a_deposited sender
              (s1.token_a_deposited sender - amount_a) }
        else s1
      let s3 : AMMState :=
        if amount_b ≤ s2.token_b_deposited sender then
          { s2 with
            token_b_deposited := upd s2.token_b_deposited sender
              (s2.token_b_deposited sender - amount_b) }
        else s2
      some (s3, amount_a, amount_b)

/-- Modelled from the spec: §4.4 gives the swap output as
`floor(amount_in*(FEE_DENOM-fee) * reserve_out /
(reserve_in*FEE_DENOM + amount_in*(FEE_DENOM-fee)))` with `FEE_DENOM = 1000`.
Stated from the spec's words, to be compared with `get_amount_out`. -/
def spec_swap_output (fee amount_in reserve_in reserve_out : Nat) : Nat :=
  amount_in * (1000 - fee) * reserve_out /
    (reserve_in * 1000 + amount_in * (1000 - fee))

/-! ### AMM helper lemmas -/

theorem get_amount_out_eq (fee amount_in reserve_in reserve_out : Nat)
    (h_in : 0 < amount_in) (h_rin : 0 < reserve_in) (h_rout : 0 < reserve_out) :
    get_amount_out fee amount_in reserve_in reserve_out =
      some (amount_in * (1000 - fee) * reserve_out /
        (reserve_in * 1000 + amount_in * (1000 - fee))) := by
  simp [get_amount_out, fee_denominator, h_in.ne', h_rin.ne', h_rout.ne']

theorem div_le_of_le_mul {a b k : Nat} (hk : 0 < k) (h : a ≤ b * k) : a / k ≤ b := by
  have h1 : a < (b + 1) * k := by nlinarith
  have h2 : a / k < b + 1 := (Nat.div_lt_iff_lt_mul hk).mpr h1
  omega

/-- The core constant-product inequality: the floor-rounded output of
`_get_amount_out` never lets the reserve product shrink, and lets it grow
strictly when the fee is positive. -/
theorem swap_product_core (ri ro dx f dy : Nat) (hri : 0 < ri) (hro : 0 < ro)
    (hdef : dy = dx * (1000 - f) * ro / (ri * 1000 + dx * (1000 - f)))
    (hdy : 0 < dy) :
    ri * ro ≤ (ri + dx) * (ro - dy) ∧
      (0 < f → ri * ro < (ri + dx) * (ro - dy)) := by
  have hden : 0 < ri * 1000 + dx * (1000 - f) := by positivity
  have hwf : 0 < dx * (1000 - f) := by
    rcases Nat.eq_zero_or_pos (dx * (1000 - f)) with h | h
    · rw [h] at hdef; simp at hdef; omega
    · exact h
  have hdx : 0 < dx := by
    rcases Nat.eq_zero_or_pos dx with h | h
    · rw [h] at hwf; simp at hwf
    · exact h
  have hf : f < 1000 := by
    by_contra hcon
    push_neg at hcon
    rw [Nat.sub_eq_zero_of_le hcon] at hwf
    simp at hwf
  have key1 : dy * (ri * 1000 + dx * (1000 - f)) ≤ dx * (1000 - f) * ro := by
    rw [hdef]; exact Nat.div_mul_le_self _ _
  have key2 : dy < ro := by
    rw [hdef]
    rw [Nat.div_lt_iff_lt_mul hden]
    have h1000 : 0 < ro * (ri * 1000) := by positivity
    nlinarith [h1000]
  -- move to the integers, where the subtraction `ro - dy` is honest
  have hG : (1000 - f) + f = 1000 := by omega
  have hconsA : ((1000 - f : Nat) : ℤ) + (f : ℤ) = 1000 := by exact_mod_cast hG
  have k1 : (dy : ℤ) * ((ri : ℤ) * 1000 + (dx : ℤ) * ((1000 - f : Nat) : ℤ)) ≤
      (dx : ℤ) * ((1000 - f : Nat) : ℤ) * (ro : ℤ) := by exact_mod_cast key1
  have k2 : (dy : ℤ) < (ro : ℤ) := by exact_mod_cast key2
  have hdxZ : (0 : ℤ) < (dx : ℤ) := by exact_mod_cast hdx
  have hriZ : (0 : ℤ) < (ri : ℤ) := by exact_mod_cast hri
  have hfZ : (0 : ℤ) ≤ (f : ℤ) := by positivity
  have hGro : (((1000 - f : Nat) : ℤ) + (f : ℤ)) * ((dx : ℤ) * (ro : ℤ)) =
      1000 * ((dx : ℤ) * (ro : ℤ)) := by rw [hconsA]
  have hGdy : (((1000 - f : Nat) : ℤ) + (f : ℤ)) * ((dx : ℤ) * (dy : ℤ)) =
      1000 * ((dx : ℤ) * (dy : ℤ)) := by rw [hconsA]
  have hfd : (0 : ℤ) ≤ (f : ℤ) * ((dx : ℤ) * ((ro : ℤ) - (dy : ℤ))) := by
    apply mul_nonneg hfZ
    apply mul_nonneg hdxZ.le
    omega
  constructor
  · have hZ : (ri : ℤ) * ro ≤ ((ri : ℤ) + dx) * ((ro : ℤ) - dy) := by
      nlinarith [k1, hGro, hGdy, hfd]
    zify [key2.le]
    exact hZ
  · intro hfpos
    have hfZ1 : (0 : ℤ) < (f : ℤ) := by exact_mod_cast hfpos
    have hfd1 : (0 : ℤ) < (f : ℤ) * ((dx : ℤ) * ((ro : ℤ) - (dy : ℤ))) := by
      apply mul_pos hfZ1
      apply mul_pos hdxZ
      omega
    have hZ : (ri : ℤ) * ro < ((ri : ℤ) + dx) * ((ro : ℤ) - dy) := by
      nlinarith [k1, hGro, hGdy, hfd1]
    zify [key2.le]
    exact hZ

/-- Anatomy of a successful `swap_a_for_b`. -/
theorem swap_a_for_b_spec (dx : Nat) (s s' : AMMState)
    (h : swap_a_for_b dx s = some s') :
    0 < dx ∧ 0 < s.reserve_a ∧ 0 < s.reserve_b ∧
    ∃ dy, dy = dx * (1000 - s.fee_rate) * s.reserve_b /
        (s.reserve_a * 1000 + dx * (1000 - s.fee_rate)) ∧
      0 < dy ∧ dy ≤ s.reserve_b ∧
      s'.reserve_a = s.reserve_a + dx ∧ s'.reserve_b = s.reserve_b - dy := by
  unfold swap_a_for_b at h
  split_ifs at h with h1 h2 h3
  push_neg at h3
  have hdx : 0 < dx := Nat.pos_of_ne_zero h2
  have hra : 0 < s.reserve_a := Nat.pos_of_ne_zero h3.1
  have hrb : 0 < s.reserve_b := Nat.pos_of_ne_zero h3.2
  rw [get_amount_out_eq s.fee_rate dx s.reserve_a s.reserve_b hdx hra hrb] at h
  rw [Option.some_bind] at h
  split_ifs at h with h4 h5
  refine ⟨hdx, hra, hrb, _, rfl, Nat.pos_of_ne_zero h4, by omega, ?_, ?_⟩
  · have := (Option.some.injEq _ _).mp h
    rw [← this]
  · have := (Option.some.injEq _ _).mp h
    rw [← this]

/-- Anatomy of a successful `swap_b_for_a`. -/
theorem swap_b_for_a_spec (dx : Nat) (s s' : AMMState)
    (h : swap_b_for_a dx s = some s') :
    0 < dx ∧ 0 < s.reserve_a ∧ 0 < s.reserve_b ∧
    ∃ dy, dy = dx * (1000 - s.fee_rate) * s.reserve_a /
        (s.reserve_b * 1000 + dx * (1000 - s.fee_rate)) ∧
      0 < dy ∧ dy ≤ s.reserve_a ∧
      s'.reserve_b = s.reserve_b + dx ∧ s'.reserve_a = s.reserve_a - dy := by
  unfold swap_b_for_a at h
  split_ifs at h with h1 h2 h3
  push_neg at h3
  have hdx : 0 < dx := Nat.pos_of_ne_zero h2
  have hra : 0 < s.reserve_a := Nat.pos_of_ne_zero h3.1
  have hrb : 0 < s.reserve_b := Nat.pos_of_ne_zero h3.2
  rw [get_amount_out_eq s.fee_rate dx s.reserve_b s.reserve_a hdx hrb hra] at h
  rw [Option.some_bind] at h
  split_ifs at h with h4 h5
  refine ⟨hdx, hra, hrb, _, rfl, Nat.pos_of_ne_zero h4, by omega, ?_, ?_⟩
  · have := (Option.some.injEq _ _).mp h
    rw [← this]
  · have := (Option.some.injEq _ _).mp h
    rw [← this]

/-- An AMM pool state with zero reserves (the post-`initialize` pool,
default fee 3). -/
def ammZero : AMMState := ⟨0, 0, 3, 0, 0, fun _ => 0, fun _ => 0, fun _ => 0⟩

/-- A funded pool: reserves 10/10, total liquidity 10, fee 3 (the state after
`add_liquidity(10,10)` on a fresh pool, with per-user maps elided). -/
def ammP : AMMState := ⟨10, 10, 3, 0, 10, fun _ => 0, fun _ => 0, fun _ => 0⟩

/-- Claim C1: every successful swap (`swap_a_for_b` or `swap_b_for_a`) on a
pool with positive reserves keeps the reserve product non-decreasing, and
strictly increases it when the fee rate is positive. -/
theorem swap_product_monotone :
    (∀ (dx : Nat) (s s' : AMMState), swap_a_for_b dx s = some s' →
      0 < s.reserve_a → 0 < s.reserve_b →
      s.reserve_a * s.reserve_b ≤ s'.reserve_a * s'.reserve_b ∧
        (0 < s.fee_rate → s.reserve_a * s.reserve_b < s'.reserve_a * s'.reserve_b)) ∧
    (∀ (dx : Nat) (s s' : AMMState), swap_b_for_a dx s = some s' →
      0 < s.reserve_a → 0 < s.reserve_b →
      s.reserve_a * s.reserve_b ≤ s'.reserve_a * s'.reserve_b ∧
        (0 < s.fee_rate → s.reserve_a * s.reserve_b < s'.reserve_a * s'.reserve_b)) := by
  constructor
  · intro dx s s' h _ _
    obtain ⟨hdx, hra, hrb, dy, hdef, hdy, hdyle, hA, hB⟩ := swap_a_for_b_spec dx s s' h
    have hc := swap_product_core s.reserve_a s.reserve_b dx s.fee_rate dy hra hrb hdef hdy
    rw [hA, hB]
    exact hc
  · intro dx s s' h _ _
    obtain ⟨hdx, hra, hrb, dy, hdef, hdy, hdyle, hB, hA⟩ := swap_b_for_a_spec dx s s' h
    have hc := swap_product_core s.reserve_b s.reserve_a dx s.fee_rate dy hrb hra hdef hdy
    rw [hA, hB, mul_comm s.reserve_a s.reserve_b,
      mul_comm (s.reserve_a - dy) (s.reserve_b + dx)]
    exact hc

/-- Claim C1 witness: on the 10/10 pool with fee 3, swapping 91 of A moves the
reserves to 101/1 and the product strictly grows (100 < 101). -/
theorem swap_product_monotone_witness : (10 : Nat) * 10 < 101 * 1 :=
  (swap_product_monotone.1 91 ammP _ rfl (by decide) (by decide)).2 (by decide)

/-- Claim C4: for positive input and reserves, the quoted output equals the
spec formula `floor(amount_in*(1000-fee)*reserve_out /
(reserve_in*1000 + amount_in*(1000-fee)))`: the fee is deducted from the
input before the constant-product identity is applied. -/
theorem get_amount_out_matches_spec (fee amount_in reserve_in reserve_out : Nat)
    (h_in : 0 < amount_in) (h_rin : 0 < reserve_in) (h_rout : 0 < reserve_out) :
    get_amount_out fee amount_in reserve_in reserve_out =
      some (spec_swap_output fee amount_in reserve_in reserve_out) := by
  simpa [spec_swap_output] using
    get_amount_out_eq fee amount_in reserve_in reserve_out h_in h_rin h_rout

/-- Claim C4 witness at fee 3, input 91, reserves 10/10. -/
theorem get_amount_out_matches_spec_witness :
    get_amount_out 3 91 10 10 = some (spec_swap_output 3 91 10 10) :=
  get_amount_out_matches_spec 3 91 10 10 (by decide) (by decide) (by decide)

/-! ### Liquidity round-trip lemmas -/

/-- Removing `c*L/X` freshly minted shares pays out at most the deposited
`c` on the side whose full amount entered the pool. -/
theorem div_round_le (X L c : Nat) :
    (c * L / X) * (X + c) / (L + c * L / X) ≤ c := by
  rcases Nat.eq_zero_or_pos (L + c * L / X) with hT | hT
  · rw [hT]; simp
  · apply div_le_of_le_mul hT
    have h1 : (c * L / X) * X ≤ c * L := Nat.div_mul_le_self _ _
    nlinarith [h1]

/-- Removing `c*L/X` freshly minted shares pays out at most `d` on the
other side, provided only `c*Y/X ≤ d` (the amount of that side actually
added to the reserve is at most `d`). -/
theorem div_round_le_pair (X Y L c d : Nat) (hX : 0 < X) (hq : c * Y / X ≤ d) :
    (c * L / X) * (Y + c * Y / X) / (L + c * L / X) ≤ d := by
  rcases Nat.eq_zero_or_pos (L + c * L / X) with hT | hT
  · rw [hT]; simp
  · have hL : 0 < L := by
      rcases Nat.eq_zero_or_pos L with h0 | h0
      · rw [h0] at hT; simp at hT
      · exact h0
    have h1 : c * Y < (c * Y / X + 1) * X := by
      conv_lhs => rw [← Nat.div_add_mod (c * Y) X]
      have h2 := Nat.mod_lt (c * Y) hX
      nlinarith [h2]
    have h2 : (c * L / X) * X ≤ c * L := Nat.div_mul_le_self _ _
    have h3 : (c * L / X) * Y * X < (c * Y / X + 1) * L * X := by
      calc (c * L / X) * Y * X = ((c * L / X) * X) * Y := by ring
        _ ≤ (c * L) * Y := Nat.mul_le_mul_right Y h2
        _ = (c * Y) * L := by ring
        _ < ((c * Y / X + 1) * X) * L := mul_lt_mul_of_pos_right h1 hL
        _ = (c * Y / X + 1) * L * X := by ring
    have h4 : (c * L / X) * Y < (c * Y / X + 1) * L :=
      lt_of_mul_lt_mul_right h3 (Nat.zero_le X)
    apply Nat.le_of_lt_succ
    rw [Nat.div_lt_iff_lt_mul hT]
    have h5 : (c * L / X) * (c * Y / X) ≤ (c * L / X) * d :=
      Nat.mul_le_mul_left _ hq
    have h6 : (c * Y / X + 1) * L ≤ (d + 1) * L :=
      Nat.mul_le_mul_right L (by omega)
    nlinarith [h4, h5, h6]

/-- Anatomy of a successful `add_liquidity`: either the first-deposit branch
or one of the two ratio-matching branches. -/
theorem add_liquidity_spec (sender a b : Nat) (s s1 : AMMState) (minted : Nat)
    (h : add_liquidity sender a b s = some (s1, minted)) :
    0 < a ∧ 0 < b ∧ minted ≤ s1.liquidity_balance sender ∧
    ((s.reserve_a = 0 ∧ s.reserve_b = 0 ∧ minted = amm_sqrt (a * b) ∧
        s1.reserve_a = a ∧ s1.reserve_b = b ∧ s1.total_liquidity = minted) ∨
     (0 < s.reserve_a ∧ 0 < s.reserve_b ∧
       ((a * s.reserve_b / s.reserve_a ≤ b ∧
          minted = a * s.total_liquidity / s.reserve_a ∧
          s1.reserve_a = s.reserve_a + a ∧
          s1.reserve_b = s.reserve_b + a * s.reserve_b / s.reserve_a ∧
          s1.total_liquidity = s.total_liquidity + minted) ∨
        (b < a * s.reserve_b / s.reserve_a ∧
          minted = b * s.total_liquidity / s.reserve_b ∧
          s1.reserve_a = s.reserve_a + b * s.reserve_a / s.reserve_b ∧
          s1.reserve_b = s.reserve_b + b ∧
          s1.total_liquidity = s.total_liquidity + minted)))) := by
  unfold add_liquidity at h
  split_ifs at h with h1 h2 h3 h4 h5
  · -- first-deposit branch
    simp only [Option.some.injEq, Prod.mk.injEq] at h
    obtain ⟨hs, hm⟩ := h
    push_neg at h2
    refine ⟨Nat.pos_of_ne_zero h2.1, Nat.pos_of_ne_zero h2.2, ?_,
      Or.inl ⟨h3.1, h3.2, hm.symm, ?_, ?_, ?_⟩⟩
    · rw [← hs, ← hm]; simp [upd_same]
    · rw [← hs]
    · rw [← hs]
    · rw [← hs]; exact hm
  · -- ratio branch, side A limiting
    simp only [Option.some.injEq, Prod.mk.injEq] at h
    obtain ⟨hs, hm⟩ := h
    push_neg at h2 h4
    refine ⟨Nat.pos_of_ne_zero h2.1, Nat.pos_of_ne_zero h2.2, ?_,
      Or.inr ⟨Nat.pos_of_ne_zero h4.1, Nat.pos_of_ne_zero h4.2,
        Or.inl ⟨h5, hm.symm, ?_, ?_, ?_⟩⟩⟩
    · rw [← hs, ← hm]; simp [upd_same]
    · rw [← hs]
    · rw [← hs]
    · rw [← hs, ← hm]
  · -- ratio branch, side B limiting
    simp only [Option.some.injEq, Prod.mk.injEq] at h
    obtain ⟨hs, hm⟩ := h
    push_neg at h2 h4 h5
    refine ⟨Nat.pos_of_ne_zero h2.1, Nat.pos_of_ne_zero h2.2, ?_,
      Or.inr ⟨Nat.pos_of_ne_zero h4.1, Nat.pos_of_ne_zero h4.2,
        Or.inr ⟨h5, hm.symm, ?_, ?_, ?_⟩⟩⟩
    · rw [← hs, ← hm]; simp [upd_same]
    · rw [← hs]
    · rw [← hs]
    · rw [← hs, ← hm]

/-- Anatomy of a successful `remove_liquidity`: the guards held and the
amounts paid out are the floor-divided proportional shares of the reserves. -/
theorem remove_liquidity_spec (sender amt : Nat) (s s2 : AMMState) (ra rb : Nat)
    (h : remove_liquidity sender amt s = some (s2, ra, rb)) :
    0 < amt ∧ amt ≤ s.liquidity_balance sender ∧ 0 < s.total_liquidity ∧
    ra = amt * s.reserve_a / s.total_liquidity ∧
    rb = amt * s.reserve_b / s.total_liquidity := by
  unfold remove_liquidity at h
  split_ifs at h with h1 h2 h3 h4 h5
  simp only [Option.some.injEq, Prod.mk.injEq] at h
  exact ⟨Nat.pos_of_ne_zero h2, by omega, Nat.pos_of_ne_zero h4,
    h.2.1.symm, h.2.2.symm⟩

/-- Claim C8 (amended): a successful `add_liquidity (a, b)` immediately
followed by a successful `remove_liquidity` of exactly the shares the
deposit minted returns component-wise at most `(a, b)` — never more.  (The
claim's further bound that floor rounding loses at most one unit per side
is refuted by `liquidity_roundtrip_loss_exceeds_one`.) -/
theorem liquidity_roundtrip_le_deposit (sender a b : Nat) (s s1 s2 : AMMState)
    (minted ra rb : Nat)
    (h1 : add_liquidity sender a b s = some (s1, minted))
    (h2 : remove_liquidity sender minted s1 = some (s2, ra, rb)) :
    ra ≤ a ∧ rb ≤ b := by
  obtain ⟨ha, hb, hlb, hcase⟩ := add_liquidity_spec sender a b s s1 minted h1
  obtain ⟨hm, hle, htp, hra, hrb⟩ := remove_liquidity_spec sender minted s1 s2 ra rb h2
  rcases hcase with ⟨hA0, hB0, hmint, hra1, hrb1, htl1⟩ | ⟨hA, hB, hbr⟩
  · -- first deposit: the payout is exactly (a, b)
    rw [htl1] at htp
    rw [hra, hrb, hra1, hrb1, htl1]
    constructor
    · exact (Nat.mul_div_cancel_left a htp).le
    · exact (Nat.mul_div_cancel_left b htp).le
  · rcases hbr with ⟨hq, hmint, hra1, hrb1, htl1⟩ | ⟨hq, hmint, hra1, hrb1, htl1⟩
    · rw [hra, hrb, hra1, hrb1, htl1, hmint]
      exact ⟨div_round_le s.reserve_a s.total_liquidity a,
        div_round_le_pair s.reserve_a s.reserve_b s.total_liquidity a b hA hq⟩
    · have hq2 : b * s.reserve_a / s.reserve_b ≤ a := by
        have h6 : b + 1 ≤ a * s.reserve_b / s.reserve_a := hq
        have h7 : (b + 1) * s.reserve_a ≤ a * s.reserve_b :=
          (Nat.le_div_iff_mul_le hA).mp h6
        have hlt : b * s.reserve_a < a * s.reserve_b := by nlinarith [h7, hA]
        exact le_of_lt ((Nat.div_lt_iff_lt_mul hB).mpr hlt)
      rw [hra, hrb, hra1, hrb1, htl1, hmint]
      exact ⟨div_round_le_pair s.reserve_b s.reserve_a s.total_liquidity b a hB hq2,
        div_round_le s.reserve_b s.total_liquidity b⟩

/-- Claim C8 witness: the first deposit of (4,9) mints `amm_sqrt 36 = 6`
shares; removing all 6 returns exactly (4,9), within the bound. -/
theorem liquidity_roundtrip_le_deposit_witness : (4 : Nat) ≤ 4 ∧ (9 : Nat) ≤ 9 :=
  liquidity_roundtrip_le_deposit 7 4 9 ammZero _ _ 6 4 9 rfl rfl

/-- Claim C8 counterexample: from a fresh pool, deposit (10,10) (mints 10
shares), swap 91 A for B (reserves become 101/1), then deposit (39,1): 3
shares are minted, and removing exactly those 3 shares returns (32,0), so
side A loses 39 - 32 = 7 units — more than the claimed "at most 1 unit per
side". -/
theorem liquidity_roundtrip_loss_exceeds_one :
    (((add_liquidity 7 10 10 ammZero).bind (fun p => swap_a_for_b 91 p.1)).bind
      (fun s => (add_liquidity 7 39 1 s).bind (fun p =>
        (remove_liquidity 7 p.2 p.1).map (fun q => (p.2, q.2.1, q.2.2))))) =
      some (3, 32, 0) ∧ ¬(39 ≤ 32 + 1) :=
  ⟨by decide, by decide⟩

/-! ## Yield Tokenization (`yield_tokenization/contract.py`)

Balances are per-user `LocalState`; we index users by `Fin n` so the
balance sums of the conservation law are finite. -/

structure TokState (n : Nat) where
  user_sy_balance : Fin n → Nat
  user_pt_balance : Fin n → Nat
  user_yt_balance : Fin n → Nat
  is_paused : Nat

/-- Pointwise update of a `Fin n`-indexed map. -/
def updF {n : Nat} (m : Fin n → Nat) (k : Fin n) (v : Nat) : Fin n → Nat :=
  fun i => if i = k then v else m i

/-- `_maturity_exists` (yield_tokenization/contract.py:196-205): the
timestamp lies strictly in the future, at most one year ahead. -/
def maturity_exists (now maturity : Nat) : Prop :=
  now < maturity ∧ maturity ≤ now + 365 * 24 * 60 * 60

instance (now maturity : Nat) : Decidable (maturity_exists now maturity) := by
  unfold maturity_exists; infer_instance

/-- `split_tokens` (yield_tokenization/contract.py:92-113). -/
def split_tokens {n : Nat} (now : Nat) (sender : Fin n) (amount maturity : Nat)
    (s : TokState n) : Option (TokState n) :=
  if s.is_paused ≠ 0 then none
  else if amount = 0 then none
  else if ¬ maturity_exists now maturity then none
  else if s.user_sy_balance sender < amount then none
  else some { s with
    user_sy_balance := updF s.user_sy_balance sender (s.user_sy_balance sender - amount)
    user_pt_balance := updF s.user_pt_balance sender (s.user_pt_balance sender + amount)
    user_yt_balance := updF s.user_yt_balance sender (s.user_yt_balance sender + amount) }

/-- `redeem_tokens` (yield_tokenization/contract.py:115-135). -/
def redeem_tokens {n : Nat} (now : Nat) (sender : Fin n) (amount maturity : Nat)
    (s : TokState n) : Option (TokState n) :=
  if s.is_paused ≠ 0 then none
  else if amount = 0 then none
  else if now < maturity then none
  else if s.user_pt_balance sender < amount then none
  else some { s with
    user_pt_balance := updF s.user_pt_balance sender (s.user_pt_balance sender - amount)
    user_sy_balance := updF s.user_sy_balance sender (s.user_sy_balance sender + amount) }

def sumSY {n : Nat} (s : TokState n) : Nat := ∑ i, s.user_sy_balance i

def sumPT {n : Nat} (s : TokState n) : Nat := ∑ i, s.user_pt_balance i

def sumYT {n : Nat} (s : TokState n) : Nat := ∑ i, s.user_yt_balance i

/-- One call in a `split_tokens` / `redeem_tokens` sequence, tagged with the
ledger timestamp at which it runs. -/
inductive TokCmd (n : Nat) where
  | split (now : Nat) (sender : Fin n) (amount maturity : Nat)
  | redeem (now : Nat) (sender : Fin n) (amount maturity : Nat)

/-- One step of the splitter; the two `Nat` components are ghost counters of
the PT and YT amounts minted by `split_tokens` so far. -/
def tok_step {n : Nat} (c : TokCmd n) (st : TokState n × Nat × Nat) :
    Option (TokState n × Nat × Nat) :=
  match c with
  | .split now sender amount maturity =>
      (split_tokens now sender amount maturity st.1).map
        (fun s => (s, st.2.1 + amount, st.2.2 + amount))
  | .redeem now sender amount maturity =>
      (redeem_tokens now sender amount maturity st.1).map
        (fun s => (s, st.2.1, st.2.2))

/-- Run a sequence of splitter calls; any failing call aborts the run. -/
def tok_run {n : Nat} : List (TokCmd n) → TokState n × Nat × Nat →
    Option (TokState n × Nat × Nat)
  | [], st => some st
  | c :: cs, st => (tok_step c st).bind (tok_run cs)

theorem sum_updF {n : Nat} (f : Fin n → Nat) (k : Fin n) (v : Nat) :
    (∑ i, updF f k v i) + f k = (∑ i, f i) + v := by
  classical
  have hu : updF f k v = Function.update f k v := by
    funext i
    simp [updF, Function.update]
  have h1 : (∑ i, updF f k v i) = v + ∑ i in Finset.univ.erase k, f i := by
    rw [hu]
    rw [Finset.sum_update_of_mem (Finset.mem_univ k)]
    rw [← Finset.sdiff_singleton_eq_erase]
  have h2 : (∑ i, f i) = f k + ∑ i in Finset.univ.erase k, f i :=
    (Finset.add_sum_erase _ f (Finset.mem_univ k)).symm
  omega

/-- A successful `split_tokens` moves `amount` from SY to PT and mints
`amount` of each claim. -/
theorem split_tokens_spec {n : Nat} (now : Nat) (sender : Fin n)
    (amount maturity : Nat) (s s' : TokState n)
    (h : split_tokens now sender amount maturity s = some s') :
    sumSY s' + amount = sumSY s ∧ sumPT s' = sumPT s + amount ∧
      sumYT s' = sumYT s + amount := by
  unfold split_tokens at h
  split_ifs at h with h1 h2 h3 h4
  obtain rfl := (Option.some.injEq _ _).mp h
  have hsy := sum_updF s.user_sy_balance sender (s.user_sy_balance sender - amount)
  have hpt := sum_updF s.user_pt_balance sender (s.user_pt_balance sender + amount)
  have hyt := sum_updF s.user_yt_balance sender (s.user_yt_balance sender + amount)
  have hle : amount ≤ s.user_sy_balance sender := by omega
  refine ⟨?_, ?_, ?_⟩ <;>
    simp only [sumSY, sumPT, sumYT] <;> omega

/-- A successful `redeem_tokens` moves `amount` from PT back to SY. -/
theorem redeem_tokens_spec {n : Nat} (now : Nat) (sender : Fin n)
    (amount maturity : Nat) (s s' : TokState n)
    (h : redeem_tokens now sender amount maturity s = some s') :
    sumPT s' + amount = sumPT s ∧ sumSY s' = sumSY s + amount ∧
      sumYT s' = sumYT s := by
  unfold redeem_tokens at h
  split_ifs at h with h1 h2 h3 h4
  obtain rfl := (Option.some.injEq _ _).mp h
  have hsy := sum_updF s.user_sy_balance sender (s.user_sy_balance sender + amount)
  have hpt := sum_updF s.user_pt_balance sender (s.user_pt_balance sender - amount)
  have hle : amount ≤ s.user_pt_balance sender := by omega
  refine ⟨?_, ?_, ?_⟩ <;>
    simp only [sumSY, sumPT, sumYT] <;> omega

theorem tok_run_inv {n : Nat} (cs : List (TokCmd n)) :
    ∀ (s : TokState n) (pm ym : Nat) (s' : TokState n) (pm' ym' : Nat),
      tok_run cs (s, pm, ym) = some (s', pm', ym') →
      sumSY s' + sumPT s' = sumSY s + sumPT s ∧ pm' + ym = ym' + pm := by
  induction cs with
  | nil =>
    intro s pm ym s' pm' ym' h
    simp only [tok_run, Option.some.injEq, Prod.mk.injEq] at h
    obtain ⟨rfl, rfl, rfl⟩ := h
    omega
  | cons c cs ih =>
    intro s pm ym s' pm' ym' h
    simp only [tok_run] at h
    cases c with
    | split now sender amount maturity =>
      simp only [tok_step] at h
      rcases hsp : split_tokens now sender amount maturity s with _ | s1
      · rw [hsp] at h; simp at h
      · rw [hsp] at h
        simp only [Option.map_some', Option.some_bind] at h
        obtain ⟨hc1, hc2, hc3⟩ := split_tokens_spec now sender amount maturity s s1 hsp
        have := ih s1 (pm + amount) (ym + amount) s' pm' ym' h
        omega
    | redeem now sender amount maturity =>
      simp only [tok_step] at h
      rcases hrd : redeem_tokens now sender amount maturity s with _ | s1
      · rw [hrd] at h; simp at h
      · rw [hrd] at h
        simp only [Option.map_some', Option.some_bind] at h
        obtain ⟨hc1, hc2, hc3⟩ := redeem_tokens_spec now sender amount maturity s s1 hrd
        have := ih s1 pm ym s' pm' ym' h
        omega

/-- Claim C2: along any sequence of successful `split_tokens` and
`redeem_tokens` calls, the sum of all SY balances plus the sum of all PT
balances is constant, and (with the ghost mint counters started at zero)
the total PT minted equals the total YT minted at every point.  Each single
split mints equal PT and YT (`split_tokens_spec`). -/
theorem split_redeem_conservation {n : Nat} (cs : List (TokCmd n))
    (s s' : TokState n) (pm ym : Nat)
    (h : tok_run cs (s, 0, 0) = some (s', pm, ym)) :
    sumSY s' + sumPT s' = sumSY s + sumPT s ∧ pm = ym := by
  have hrun := tok_run_inv cs s 0 0 s' pm ym h
  exact ⟨hrun.1, by omega⟩

/-- A one-user splitter state holding 10 SY. -/
def tokW : TokState 1 := ⟨fun _ => 10, fun _ => 0, fun _ => 0, 0⟩

/-- The state after splitting 4 and redeeming 3 (maturity 100). -/
def tokWfinal : TokState 1 :=
  ⟨updF (updF (fun _ => 10) 0 6) 0 9,
   updF (updF (fun _ => 0) 0 4) 0 1,
   updF (fun _ => 0) 0 4, 0⟩

def tokWcmds : List (TokCmd 1) :=
  [TokCmd.split 0 0 4 100, TokCmd.redeem 100 0 3 100]

/-- Claim C2 witness: splitting 4 then redeeming 3 conserves SY+PT (10)
and mints PT and YT equally (4 each). -/
theorem split_redeem_conservation_witness :
    sumSY tokWfinal + sumPT tokWfinal = sumSY tokW + sumPT tokW ∧ (4 : Nat) = 4 :=
  split_redeem_conservation tokWcmds tokW tokWfinal 4 4 rfl

/-! ## Token Ledger (`pt_token/contract.py`, identical shape in
`yt_token/contract.py`)

The source's `mint` credits `Txn.sender` regardless of the `to` argument
(line 78, "For now, mint to sender"), and `transfer`/`transfer_from` debit
the sender without ever crediting the recipient (lines 109-110, 172-178).
The embedding reproduces this faithfully. -/

structure LedgerState (n : Nat) where
  owner : Fin n
  maturity : Nat
  total_supply : Nat
  balance : Fin n → Nat
  allowance : Fin n → Nat

/-- `mint` (pt_token/contract.py:67-81): owner-only; credits the sender's
balance, not `to`. -/
def mint {n : Nat} (sender to_addr : Fin n) (amount : Nat) (s : LedgerState n) :
    Option (LedgerState n) :=
  if sender ≠ s.owner then none
  else if amount = 0 then none
  else some { s with
    total_supply := s.total_supply + amount
    balance := updF s.balance sender (s.balance sender + amount) }

/-- `burn` (pt_token/contract.py:83-96). -/
def burn {n : Nat} (sender : Fin n) (amount : Nat) (s : LedgerState n) :
    Option (LedgerState n) :=
  if amount = 0 then none
  else if s.balance sender < amount then none
  else if s.total_supply < amount then none
  else some { s with
    balance := updF s.balance sender (s.balance sender - amount)
    total_supply := s.total_supply - amount }

/-- `transfer` (pt_token/contract.py:98-113): debits the sender and never
credits `to` ("For simplicity, just updating sender balance"). -/
def transfer {n : Nat} (sender to_addr : Fin n) (amount : Nat) (s : LedgerState n) :
    Option (LedgerState n) :=
  if amount = 0 then none
  else if s.balance sender < amount then none
  else some { s with
    balance := updF s.balance sender (s.balance sender - amount) }

/-- `approve` (pt_token/contract.py:149-155): a single per-sender allowance
slot. -/
def approve {n : Nat} (sender spender : Fin n) (amount : Nat)
    (s : LedgerState n) : LedgerState n :=
  { s with allowance := updF s.allowance sender amount }

/-- `transfer_from` (pt_token/contract.py:163-181): checks and debits the
sender's own allowance and balance; `from_addr` and `to` are ignored. -/
def transfer_from {n : Nat} (sender from_addr to_addr : Fin n) (amount : Nat)
    (s : LedgerState n) : Option (LedgerState n) :=
  if amount = 0 then none
  else if s.allowance sender < amount then none
  else if s.balance sender < amount then none
  else some { s with
    balance := updF s.balance sender (s.balance sender - amount)
    allowance := updF s.allowance sender (s.allowance sender - amount) }

def sumBal {n : Nat} (s : LedgerState n) : Nat := ∑ i, s.balance i

/-- A fresh two-account ledger owned by account 0. -/
def ledger0 : LedgerState 2 := ⟨0, 1000, 0, fun _ => 0, fun _ => 0⟩

/-- Claim C3: the spec's ledger invariant `sum(balances) == total_supply`
is broken by the code: after `mint(to := 1, 10)` (which credits the owner)
and `transfer(to := 1, 4)` (which debits the sender and credits nobody),
the balances sum to 6 while `total_supply` is 10.  The code contradicts the
spec's stated invariant; §9 of the spec flags the per-caller-only balance
handling as a defect, so the claim is right and the code is wrong. -/
theorem transfer_breaks_supply_invariant :
    ((mint (0 : Fin 2) 1 10 ledger0).bind (fun s => transfer 0 1 4 s)).map
        (fun s => (sumBal s, s.total_supply)) = some (6, 10) ∧ (6 : Nat) ≠ 10 :=
  ⟨by decide, by decide⟩

/-! ## Staking DApp (`staking_dapp/contract.py`)

The reward parameters are plain constructor constants
(`reward_amount = 5`, `reward_interval = 10`, `precision_factor = 10^9`);
users are indexed by plain `Nat` addresses. -/

structure StakeState where
  is_paused : Nat
  total_staked : Nat
  total_rewards_distributed : Nat
  staked_amount : Nat → Nat
  last_reward_time : Nat → Nat
  reward_balance : Nat → Nat

def reward_amount : Nat := 5

def reward_interval : Nat := 10

def precision_factor : Nat := 1000000000

/-- `_calculate_reward_internal` (staking_dapp/contract.py:233-253). -/
def calculate_reward (now sender : Nat) (s : StakeState) : Nat :=
  if s.staked_amount sender = 0 then 0
  else if now ≤ s.last_reward_time sender then 0
  else
    ((now - s.last_reward_time sender) / reward_interval * reward_amount *
      s.staked_amount sender) / precision_factor

/-- `_update_rewards` (staking_dapp/contract.py:222-231). -/
def update_rewards (now sender : Nat) (s : StakeState) : StakeState :=
  let pending := calculate_reward now sender s
  let s1 :=
    if 0 < pending then
      { s with
        reward_balance := upd s.reward_balance sender (s.reward_balance sender + pending) }
    else s
  { s1 with last_reward_time := upd s1.last_reward_time sender now }

/-- `stake` (staking_dapp/contract.py:71-89). -/
def stake (now sender amount : Nat) (s : StakeState) : Option StakeState :=
  if s.is_paused ≠ 0 then none
  else if amount = 0 then none
  else
    let s1 := update_rewards now sender s
    some { s1 with
      staked_amount := upd s1.staked_amount sender (s1.staked_amount sender + amount)
      total_staked := s1.total_staked + amount
      last_reward_time := upd s1.last_reward_time sender now }

/-- `unstake` (staking_dapp/contract.py:91-111). -/
def unstake (now sender amount : Nat) (s : StakeState) : Option StakeState :=
  if s.is_paused ≠ 0 then none
  else if amount = 0 then none
  else if s.staked_amount sender < amount then none
  else if s.total_staked < amount then none
  else
    let s1 := update_rewards now sender s
    some { s1 with
      staked_amount := upd s1.staked_amount sender (s1.staked_amount sender - amount)
      total_staked := s1.total_staked - amount
      last_reward_time := upd s1.last_reward_time sender now }

/-- `claim_rewards` (staking_dapp/contract.py:113-131). -/
def claim_rewards (now sender : Nat) (s : StakeState) : Option StakeState :=
  if s.is_paused ≠ 0 then none
  else if (update_rewards now sender s).reward_balance sender = 0 then none
  else
    let s1 := update_rewards now sender s
    some { s1 with
      reward_balance := upd s1.reward_balance sender 0
      total_rewards_distributed :=
        s1.total_rewards_distributed + s1.reward_balance sender }

/-- `compound_rewards` (staking_dapp/contract.py:255-275). -/
def compound_rewards (now sender : Nat) (s : StakeState) : Option StakeState :=
  if s.is_paused ≠ 0 then none
  else if (update_rewards now sender s).reward_balance sender = 0 then none
  else
    let s1 := update_rewards now sender s
    some { s1 with
      reward_balance := upd s1.reward_balance sender 0
      staked_amount := upd s1.staked_amount sender
        (s1.staked_amount sender + s1.reward_balance sender)
      total_staked := s1.total_staked + s1.reward_balance sender
      last_reward_time := upd s1.last_reward_time sender now }

/-- `emergency_withdraw` (staking_dapp/contract.py:186-197): zeroes the
stake without settling rewards. -/
def emergency_withdraw (sender : Nat) (s : StakeState) : Option StakeState :=
  if s.staked_amount sender = 0 then none
  else if s.total_staked < s.staked_amount sender then none
  else some { s with
    staked_amount := upd s.staked_amount sender 0
    total_staked := s.total_staked - s.staked_amount sender }

/-- The zero staking state (post-`initialize`). -/
def stakeZero : StakeState := ⟨0, 0, 0, fun _ => 0, fun _ => 0, fun _ => 0⟩

/-- Claim C5 counterexample: with `reward_amount = 5`,
`reward_interval = 10`, `precision_factor = 10^9`, a position staking 1000
units at time 0 has pending reward `floor(200000*5*1000/10^9) = 1` at time
2,000,000 — not 1000 as the claim states. -/
theorem staking_pending_after_2000000s_is_1_not_1000 :
    ((stake 0 1 1000 stakeZero).map (fun s => calculate_reward 2000000 1 s)) =
      some 1 ∧ (1 : Nat) ≠ 1000 :=
  ⟨by decide, by decide⟩

/-- Claim C5 (amended): staking 1000 units at time 0, the pending reward is
0 after 100 seconds and `floor(200000*5*1000/10^9) = 1` after 2,000,000
seconds; `claim_rewards` at that moment zeroes the pending reward (the
reward balance becomes 0 and the freshly settled clock leaves 0 pending)
and credits exactly that amount, 1, to `total_rewards_distributed`. -/
theorem staking_accrual_concrete :
    ((stake 0 1 1000 stakeZero).map (fun s =>
      (calculate_reward 100 1 s, calculate_reward 2000000 1 s,
        (claim_rewards 2000000 1 s).map (fun s2 =>
          (s2.reward_balance 1, calculate_reward 2000000 1 s2,
            s2.total_rewards_distributed))))) =
      some (0, 1, some (0, 0, 1)) := by decide

/-- Claim C9: a successful `emergency_withdraw` zeroes the user's stake and
decrements `total_staked` by exactly that stake; it changes no other
per-user or global field (other users' stakes, every `last_reward_time` and
`reward_balance`, `total_rewards_distributed`, the pause flag); the pending
reward is forfeited: afterwards the pending-reward computation yields 0 at
every time, and any later successful `claim_rewards` credits exactly the
reward balance that was already settled before the withdrawal — no part of
the forfeited pending amount. -/
theorem emergency_withdraw_frame (sender : Nat) (s s' : StakeState)
    (h : emergency_withdraw sender s = some s') :
    s'.staked_amount sender = 0 ∧
    s'.total_staked + s.staked_amount sender = s.total_staked ∧
    (∀ a, a ≠ sender → s'.staked_amount a = s.staked_amount a) ∧
    s'.reward_balance = s.reward_balance ∧
    s'.last_reward_time = s.last_reward_time ∧
    s'.total_rewards_distributed = s.total_rewards_distributed ∧
    s'.is_paused = s.is_paused ∧
    (∀ now, calculate_reward now sender s' = 0) ∧
    (∀ now s'', claim_rewards now sender s' = some s'' →
      s''.total_rewards_distributed =
        s.total_rewards_distributed + s.reward_balance sender ∧
      s''.reward_balance sender = 0) := by
  unfold emergency_withdraw at h
  split_ifs at h with h1 h2
  have hs' : s' =
      { s with
        staked_amount := upd s.staked_amount sender 0
        total_staked := s.total_staked - s.staked_amount sender } :=
    ((Option.some.injEq _ _).mp h).symm
  have hstA : s'.staked_amount = upd s.staked_amount sender 0 := by rw [hs']
  have htot : s'.total_staked = s.total_staked - s.staked_amount sender := by rw [hs']
  have hrb : s'.reward_balance = s.reward_balance := by rw [hs']
  have hlrt : s'.last_reward_time = s.last_reward_time := by rw [hs']
  have htrd : s'.total_rewards_distributed = s.total_rewards_distributed := by rw [hs']
  have hpau : s'.is_paused = s.is_paused := by rw [hs']
  have hpend : ∀ now, calculate_reward now sender s' = 0 := by
    intro now
    unfold calculate_reward
    rw [hstA]
    simp [upd_same]
  refine ⟨by rw [hstA]; exact upd_same _ _ _, by rw [htot]; omega, ?_,
    hrb, hlrt, htrd, hpau, hpend, ?_⟩
  · intro a ha
    rw [hstA]
    exact upd_other _ _ _ _ ha
  · intro now s'' hc
    have hupd : update_rewards now sender s' =
        { s' with last_reward_time := upd s'.last_reward_time sender now } := by
      unfold update_rewards
      rw [hpend now]
      simp
    unfold claim_rewards at hc
    rw [hupd] at hc
    split_ifs at hc with hp hz
    have hs'' : s'' =
        { s' with
          last_reward_time := upd s'.last_reward_time sender now
          reward_balance := upd s'.reward_balance sender 0
          total_rewards_distributed :=
            s'.total_rewards_distributed + s'.reward_balance sender } :=
      ((Option.some.injEq _ _).mp hc).symm
    constructor
    · rw [hs'']
      show s'.total_rewards_distributed + s'.reward_balance sender = _
      rw [htrd, hrb]
    · rw [hs'']
      show upd s'.reward_balance sender 0 sender = 0
      exact upd_same _ _ _

/-- A staking state with user 0 holding 50 staked, a settled reward balance
of 7 and an accrual clock at 3. -/
def stakeW : StakeState := ⟨0, 50, 2, fun _ => 50, fun _ => 3, fun _ => 7⟩

/-- `stakeW` after `emergency_withdraw` by user 0. -/
def stakeWafter : StakeState :=
  { stakeW with
    staked_amount := upd stakeW.staked_amount 0 0
    total_staked := stakeW.total_staked - stakeW.staked_amount 0 }

/-- Claim C9 witness: user 0 emergency-withdraws their 50-unit stake; the
stake is zeroed, `total_staked` drops by 50, and at time 1000 (99 accrual
intervals later) the pending reward is 0. -/
theorem emergency_withdraw_frame_witness :
    stakeWafter.staked_amount 0 = 0 ∧
    stakeWafter.total_staked + stakeW.staked_amount 0 = stakeW.total_staked ∧
    calculate_reward 1000 0 stakeWafter = 0 := by
  have hw := emergency_withdraw_frame 0 stakeW stakeWafter rfl
  exact ⟨hw.1, hw.2.1, hw.2.2.2.2.2.2.2.1 1000⟩

/-! ## Price Oracle (`price_oracle/contract.py`) -/

structure OracleState where
  is_paused : Nat
  circuit_breaker_active : Nat
  token_price : Nat
  price_timestamp : Nat
  price_confidence : Nat
  threshold_price : Nat
  threshold_active : Nat

/-- `self.staleness_threshold = UInt64(3600)` -/
def staleness_threshold : Nat := 3600

/-- `get_price` (price_oracle/contract.py:154-165): asserts a positive
stored price and freshness (`now ≤ price_timestamp + staleness_threshold`). -/
def get_price (now : Nat) (s : OracleState) : Option Nat :=
  if s.token_price = 0 then none
  else if s.price_timestamp + staleness_threshold < now then none
  else some s.token_price

/-- Claim C6: given a stored positive price, `get_price` fails at every
time strictly past `price_timestamp + staleness_threshold` and still
succeeds, returning the stored price, exactly at the boundary
`now = price_timestamp + staleness_threshold`. -/
theorem get_price_staleness_boundary (s : OracleState)
    (hp : 0 < s.token_price) :
    (∀ now, s.price_timestamp + staleness_threshold < now →
      get_price now s = none) ∧
    get_price (s.price_timestamp + staleness_threshold) s =
      some s.token_price := by
  constructor
  · intro now hlate
    unfold get_price
    rw [if_neg (by omega), if_pos hlate]
  · unfold get_price
    rw [if_neg (by omega), if_neg (by omega)]

/-- An oracle holding price 100 stamped at time 50. -/
def oracleW : OracleState := ⟨0, 0, 100, 50, 9000, 0, 0⟩

/-- Claim C6 witness: with price 100 at timestamp 50 (staleness 3600),
`get_price` fails at time 3651 and returns 100 at time 3650. -/
theorem get_price_staleness_boundary_witness :
    get_price 3651 oracleW = none ∧ get_price 3650 oracleW = some 100 := by
  have hw := get_price_staleness_boundary oracleW (by decide)
  exact ⟨hw.1 3651 (by decide), hw.2⟩

/-! ## YT Auto Converter (`yt_auto_converter/contract.py`) -/

/-- The distinct abort causes of `execute_conversion`, in the order the
source checks them (`arithError` stands for an AVM subtraction underflow,
possible only if `conversion_fee > 10000`). -/
inductive ConvError where
  | paused
  | expired
  | notEnabled
  | alreadyExecuted
  | thresholdNotReached
  | noYTTokens
  | arithError
  | insufficientOutput
deriving DecidableEq

structure ConvState where
  conversion_fee : Nat
  is_paused : Nat
  total_conversions : Nat
  conversion_enabled : Nat → Nat
  threshold_price : Nat → Nat
  user_maturity : Nat → Nat
  conversion_executed : Nat → Nat
  yt_balance : Nat → Nat
  pt_balance : Nat → Nat

/-- `configure_conversion` (yt_auto_converter/contract.py:77-94). -/
def configure_conversion (now sender enabled threshold maturity : Nat)
    (s : ConvState) : Option ConvState :=
  if threshold = 0 then none
  else if maturity ≤ now then none
  else some { s with
    conversion_enabled := upd s.conversion_enabled sender enabled
    threshold_price := upd s.threshold_price sender threshold
    user_maturity := upd s.user_maturity sender maturity
    conversion_executed := upd s.conversion_executed sender 0 }

/-- `deposit_yt_tokens` (yt_auto_converter/contract.py:96-104). -/
def deposit_yt_tokens (sender amount : Nat) (s : ConvState) :
    Option ConvState :=
  if amount = 0 then none
  else some { s with
    yt_balance := upd s.yt_balance sender (s.yt_balance sender + amount) }

/-- `execute_conversion` (yt_auto_converter/contract.py:106-148), with the
inlined `_perform_market_conversion` (lines 281-293: slippage factor
9950/10000, floor-rounded, asserting the output meets `min_output`).  The
"threshold" check (lines 123-126) is exactly `threshold_price[sender] > 0`
on the converter's own local state — no Oracle state is read. -/
def execute_conversion (now sender min_pt_amount deadline : Nat)
    (s : ConvState) : Except ConvError ConvState :=
  if s.is_paused ≠ 0 then .error .paused
  else if deadline < now then .error .expired
  else if s.conversion_enabled sender ≠ 1 then .error .notEnabled
  else if s.conversion_executed sender ≠ 0 then .error .alreadyExecuted
  else if s.threshold_price sender = 0 then .error .thresholdNotReached
  else if s.yt_balance sender = 0 then .error .noYTTokens
  else if s.yt_balance sender <
      s.yt_balance sender * s.conversion_fee / 10000 then .error .arithError
  else if (s.yt_balance sender -
        s.yt_balance sender * s.conversion_fee / 10000) * 9950 / 10000 <
      min_pt_amount then .error .insufficientOutput
  else .ok { s with
    yt_balance := upd s.yt_balance sender 0
    pt_balance := upd s.pt_balance sender (s.pt_balance sender +
      (s.yt_balance sender -
        s.yt_balance sender * s.conversion_fee / 10000) * 9950 / 10000)
    conversion_executed := upd s.conversion_executed sender 1
    total_conversions := s.total_conversions + 1 }

/-- A fresh converter (post-`initialize`): fee 30, nothing configured. -/
def convZero : ConvState :=
  ⟨30, 0, 0, fun _ => 0, fun _ => 0, fun _ => 0, fun _ => 0, fun _ => 0, fun _ => 0⟩

/-- `convZero` after user 0 configures (enabled, threshold 100, maturity 100). -/
def convW1 : ConvState :=
  { convZero with
    conversion_enabled := upd convZero.conversion_enabled 0 1
    threshold_price := upd convZero.threshold_price 0 100
    user_maturity := upd convZero.user_maturity 0 100
    conversion_executed := upd convZero.conversion_executed 0 0 }

/-- `convW1` after user 0 deposits 1000 YT. -/
def convW2 : ConvState :=
  { convW1 with
    yt_balance := upd convW1.yt_balance 0 (convW1.yt_balance 0 + 1000) }

/-- `convW2` after the conversion executes: YT zeroed, 992 PT credited,
the `Executed` latch set. -/
def convW3 : ConvState :=
  { convW2 with
    yt_balance := upd convW2.yt_balance 0 0
    pt_balance := upd convW2.pt_balance 0 (convW2.pt_balance 0 +
      (convW2.yt_balance 0 -
        convW2.yt_balance 0 * convW2.conversion_fee / 10000) * 9950 / 10000)
    conversion_executed := upd convW2.conversion_executed 0 1
    total_conversions := convW2.total_conversions + 1 }

/-- Claim C7: user 0 configures (threshold 100), deposits 1000 YT with the
default 30 bps fee; for any call time at or before the deadline and any
`min_pt_amount ≤ 965`, `execute_conversion` succeeds (the actual output,
`floor(floor(1000 - 1000*30/10000) * 9950 / 10000) = 992`, covers any such
minimum), crediting 992 PT and zeroing the YT; any second call at or
before its deadline fails with the PolicyError `alreadyExecuted`, until a
new `configure_conversion` resets the `Executed` latch to 0. -/
theorem auto_converter_one_shot (t1 dl minp : Nat)
    (ht1 : t1 ≤ dl) (hminp : minp ≤ 965) :
    configure_conversion 0 0 1 100 100 convZero = some convW1 ∧
    deposit_yt_tokens 0 1000 convW1 = some convW2 ∧
    execute_conversion t1 0 minp dl convW2 = .ok convW3 ∧
    convW3.pt_balance 0 = 992 ∧ convW3.yt_balance 0 = 0 ∧
    (∀ t2 minp2 dl2, t2 ≤ dl2 →
      execute_conversion t2 0 minp2 dl2 convW3 = .error .alreadyExecuted) ∧
    (∀ tc e th m s4, configure_conversion tc 0 e th m convW3 = some s4 →
      s4.conversion_executed 0 = 0) := by
  refine ⟨rfl, rfl, ?_, by decide, by decide, ?_, ?_⟩
  · unfold execute_conversion
    rw [if_neg (by decide)]
    rw [if_neg (Nat.not_lt.mpr ht1)]
    rw [if_neg (by decide)]
    rw [if_neg (by decide)]
    rw [if_neg (by decide)]
    rw [if_neg (by decide)]
    rw [if_neg (by decide)]
    rw [if_neg (Nat.not_lt.mpr (le_trans hminp (by decide)))]
    rfl
  · intro t2 minp2 dl2 h2
    unfold execute_conversion
    rw [if_neg (by decide)]
    rw [if_neg (Nat.not_lt.mpr h2)]
    rw [if_neg (by decide)]
    rw [if_pos (by decide)]
  · intro tc e th m s4 h4
    unfold configure_conversion at h4
    split_ifs at h4 with h5 h6
    have hs4 := ((Option.some.injEq _ _).mp h4).symm
    rw [hs4]
    show upd convW3.conversion_executed 0 0 0 = 0
    exact upd_same _ _ _

/-- Claim C7 witness: at call time 5 with deadline 9 and
`min_pt_amount = 965` the conversion succeeds; a repeat at time 7 with
deadline 8 is rejected as already executed. -/
theorem auto_converter_one_shot_witness :
    execute_conversion 5 0 965 9 convW2 = .ok convW3 ∧
    execute_conversion 7 0 1 8 convW3 = .error .alreadyExecuted := by
  have hw := auto_converter_one_shot 5 9 965 (by decide) (by decide)
  exact ⟨hw.2.2.1, hw.2.2.2.2.2.1 7 1 8 (by decide)⟩

/-- Claim C10: `execute_conversion` reads no Oracle state (it is a function
of the converter's own state alone); its "Threshold not reached" abort is
exactly the predicate `threshold_price[sender] = 0`, and
`configure_conversion` stores a positive threshold, so for a caller who has
completed `configure_conversion` that check can never fail — on the
post-configure state, and on every state whose stored threshold is
positive, `execute_conversion` never returns `thresholdNotReached`;
conversely whenever it does return it, the stored threshold is 0. -/
theorem execute_threshold_check_trivial (now sender e th m : Nat)
    (s s' : ConvState)
    (h : configure_conversion now sender e th m s = some s') :
    0 < s'.threshold_price sender ∧
    (∀ now2 minp dl, execute_conversion now2 sender minp dl s' ≠
      .error .thresholdNotReached) ∧
    (∀ (t : ConvState) now2 minp dl, 0 < t.threshold_price sender →
      execute_conversion now2 sender minp dl t ≠ .error .thresholdNotReached) ∧
    (∀ (t : ConvState) now2 minp dl,
      execute_conversion now2 sender minp dl t = .error .thresholdNotReached →
      t.threshold_price sender = 0) := by
  have hgen : ∀ (t : ConvState) now2 minp dl,
      execute_conversion now2 sender minp dl t = .error .thresholdNotReached →
      t.threshold_price sender = 0 := by
    intro t now2 minp dl he
    unfold execute_conversion at he
    split_ifs at he with h1 h2 h3 h4 h5 h6 h7 h8 <;> simp_all
  have hpos : 0 < s'.threshold_price sender := by
    unfold configure_conversion at h
    split_ifs at h with h1 h2
    have hs' := ((Option.some.injEq _ _).mp h).symm
    rw [hs']
    show 0 < upd s.threshold_price sender th sender
    rw [upd_same]
    omega
  refine ⟨hpos, ?_, ?_, hgen⟩
  · intro now2 minp dl he
    have := hgen s' now2 minp dl he
    omega
  · intro t now2 minp dl hpt he
    have := hgen t now2 minp dl he
    omega

/-- Claim C10 witness: after a concrete configuration (threshold 100) the
stored threshold is positive, and a concrete `execute_conversion` call on
an unconfigured state that does fail the threshold check indeed has
threshold 0 stored. -/
theorem execute_threshold_check_trivial_witness :
    0 < convW1.threshold_price 0 ∧
    execute_conversion 3 0 5 9 convW1 ≠ .error .thresholdNotReached := by
  have hw := execute_threshold_check_trivial 0 0 1 100 100 convZero convW1 rfl
  exact ⟨hw.1, hw.2.1 3 5 9⟩

end Marlin
